import Mathlib

/-!
# Device front-port and rear-port data sources

A shallow embedding of `dataSourceNetboxDeviceFrontPortsRead`
(`netbox/data_source_netbox_device_front_ports.go`) and of
`dataSourceNetboxDeviceRearPortsRead`
(`netbox/data_source_netbox_device_rear_ports.go`), followed by the properties
of the two read functions.

Conventions of the embedding:

* a Go pointer `*T` is an `Option T` (`none` is the nil pointer), and a dereference of
  `none` is a run-time panic;
* a Go slice `[]T` is a `Slice T`, an `Option (List T)` whose `none` is the nil slice, so
  that `x != nil` on a slice and `append` are the Go ones;
* `int64` values are only copied, never computed with, and are integers;
* a `map[string]interface{}` is the function from keys to the value stored under them;
* the collaborators of the read (NetBox client, `regexp`, `id.UniqueId`, `d.Set`) are
  arguments of the embedded functions.
-/

set_option autoImplicit false

namespace Netbox

/-! ## Go values -/

/-- A Go slice: `none` is the nil slice, `some l` a non-nil slice holding `l`. -/
abbrev Slice (α : Type) := Option (List α)

/-- The elements a `for _, x := range s` loop visits, in order. -/
def rangeOf {α : Type} (s : Slice α) : List α :=
  match s with
  | none => []
  | some l => l

/-- Go `append(s, x)`: the result is never the nil slice. -/
def appendSlice {α : Type} (s : Slice α) (x : α) : Slice α :=
  some (rangeOf s ++ [x])

/-- The dynamic values stored in an attribute map by the read functions. -/
inductive Value where
  | int64 (n : Int)
  | string (s : String)
  | bool (b : Bool)
  | int64s (s : Slice Int)
deriving DecidableEq, Repr

/-- A Go `map[string]interface{}`: the value stored under each key, if any. -/
abbrev Mapping := String → Option Value

/-- Go `make(map[string]interface{})`: the empty map. -/
def makeMapping : Mapping := fun _ => none

/-- Go `mapping[k] = v`. -/
def setKey (mapping : Mapping) (k : String) (v : Value) : Mapping :=
  fun key => if key = k then some v else mapping key

/-- Run-time panics the read functions can raise. -/
inductive Panic where
  /-- Dereference of a nil pointer. -/
  | nilDereference
  /-- The panic of `regexp.MustCompile` on a pattern that does not compile. -/
  | mustCompile (pattern : String)
deriving DecidableEq, Repr

/-- Go `error` values, by origin. -/
inductive GoError where
  /-- A value built by `fmt.Errorf`, with its formatted message. -/
  | Errorf (msg : String)
  /-- A value built by `errors.New`. -/
  | New (msg : String)
  /-- An error returned by the NetBox client, with its message. -/
  | client (msg : String)
  /-- An error returned by `d.Set`, with its message. -/
  | schema (msg : String)
deriving DecidableEq, Repr

/-- The `Error()` method. -/
def GoError.Error : GoError → String
  | .Errorf msg => msg
  | .New msg => msg
  | .client msg => msg
  | .schema msg => msg

/-! ## Types of the generated NetBox client read by the source -/

/-- The fields of `models.NestedTag` the source reads. -/
structure NestedTag where
  ID : Int
deriving DecidableEq, Repr

/-- The fields of `models.NestedDevice` the source reads. -/
structure NestedDevice where
  ID : Int
deriving DecidableEq, Repr

/-- The fields of `models.FrontPort` the source reads: `Name` is a `*string`, `Tags` a
`[]*models.NestedTag` and `Device` a `*models.NestedDevice`. -/
structure FrontPort where
  ID : Int
  Description : String
  Occupied : Bool
  Name : Option String
  Tags : Slice (Option NestedTag)
  Device : Option NestedDevice
  Label : String
deriving DecidableEq, Repr

/-- The source reads the same fields of `models.RearPort`, with the same types. -/
abbrev RearPort := FrontPort

/-- The three fields of `dcim.DcimFrontPortsListParams` the source writes (`*string`). -/
structure DcimFrontPortsListParams where
  DeviceID : Option String
  Device : Option String
  Name : Option String
deriving DecidableEq, Repr

/-- The source writes the same three fields of `dcim.DcimRearPortsListParams`. -/
abbrev DcimRearPortsListParams := DcimFrontPortsListParams

/-- The constructor `dcim.NewDcimFrontPortsListParams()`: no filter field is set. -/
def NewDcimFrontPortsListParams : DcimFrontPortsListParams :=
  { DeviceID := none, Device := none, Name := none }

/-- The constructor `dcim.NewDcimRearPortsListParams()`: no filter field is set. -/
def NewDcimRearPortsListParams : DcimRearPortsListParams :=
  { DeviceID := none, Device := none, Name := none }

/-- The body of a successful list response, `res.GetPayload()`: `Count` is a `*int64` and
`Results` a slice of record pointers. -/
structure Payload where
  Count : Option Int
  Results : Slice (Option FrontPort)
deriving DecidableEq, Repr

/-- The two list endpoints of `api.Dcim` the source calls: each returns the payload of a
successful response or the message of the error. -/
structure NetBoxAPI where
  DcimFrontPortsList : DcimFrontPortsListParams → Except String Payload
  DcimRearPortsList : DcimRearPortsListParams → Except String Payload

/-! ## The Terraform side -/

/-- One element of the `filter` set: the `name` and `value` strings of its schema. -/
structure FilterEntry where
  name : String
  value : String
deriving DecidableEq, Repr

/-- The part of `schema.ResourceData` the read functions touch: the configured `filter`
set, listed in the order `filterParams.List()` yields it, the configured `name_regex`
(`none` when it is not configured), the identifier, and the attributes written by `d.Set`. -/
structure ResourceData where
  filter : List FilterEntry
  name_regex : Option String
  Id : String
  attrs : String → Option (Slice Mapping)

/-- The SDK call `d.GetOk("filter")`: the flag is false for an empty set. -/
def GetOkFilter (d : ResourceData) : Option (List FilterEntry) :=
  if d.filter = [] then none else some d.filter

/-- The SDK call `d.GetOk("name_regex")`: the flag is false for the zero value `""`. -/
def GetOkNameRegex (d : ResourceData) : Option String :=
  match d.name_regex with
  | none => none
  | some v => if v = "" then none else some v

/-- The SDK call `d.SetId(v)`. -/
def ResourceData.SetId (d : ResourceData) (v : String) : ResourceData :=
  { d with Id := v }

/-- The effect of a successful `d.Set(key, s)`. -/
def ResourceData.write (d : ResourceData) (key : String) (s : Slice Mapping) : ResourceData :=
  { d with attrs := fun k => if k = key then some s else d.attrs k }

/-- The package `regexp`, as far as the source uses it. -/
structure RegexpLib where
  /-- Whether `regexp.Compile` accepts the pattern. -/
  compiles : String → Bool
  /-- For a pattern that compiles, `regexp.MustCompile(pattern).MatchString(s)`. -/
  MatchString : String → String → Bool

/-- What the read functions get from their run-time environment besides the client. -/
structure Runtime where
  regexp : RegexpLib
  /-- The string `id.UniqueId()` returns at this call. -/
  UniqueId : String
  /-- The result of `d.Set(key, s)`: `none` on success, the message of the error otherwise
  (nothing is written then). -/
  Set : String → Slice Mapping → Option String

/-- The function `validation.StringIsValidRegExp` of the SDK, the `ValidateFunc` of
`name_regex` in both schemas: the list of errors it reports for a value under key `k`. -/
def StringIsValidRegExp (re : RegexpLib) (i : String) (k : String) : List GoError :=
  if re.compiles i then [] else [GoError.Errorf ("\"" ++ k ++ "\": invalid pattern " ++ i)]

/-- How a call of a read function ends. -/
inductive Outcome where
  /-- It returned `nil`. -/
  | nil
  /-- It returned a non-nil error. -/
  | error (err : GoError)
  /-- It did not return: a run-time panic unwound it. -/
  | panic (p : Panic)
deriving DecidableEq, Repr

/-- The observable result of a read: how it ended, the resource data it left, and the
parameters of the remote list calls it issued, in order. -/
structure ReadResult where
  outcome : Outcome
  d : ResourceData
  calls : List DcimFrontPortsListParams

/-! ## The blocks of the read functions

The two read functions are the same text up to the names `FrontPort`/`RearPort`,
`DcimFrontPortsList`/`DcimRearPortsList` and `"front_ports"`/`"rear_ports"`; their loops
are embedded once. -/

/-- The message `fmt.Errorf("'%s' is not a supported filter parameter", k)` formats. -/
def unsupportedFilterMessage (k : String) : String :=
  "\x27" ++ k ++ "\x27 is not a supported filter parameter"

/-- Lines 91-105: the loop over `filterParams.List()`, with its `switch k` and the early
return of the `default` arm. -/
def filterLoop : List FilterEntry → DcimFrontPortsListParams →
    Except GoError DcimFrontPortsListParams
  | [], params => .ok params
  | f :: rest, params =>
    let k := f.name
    let vString := f.value
    if k = "device_id" then filterLoop rest { params with DeviceID := some vString }
    else if k = "device_name" then filterLoop rest { params with Device := some vString }
    else if k = "name" then filterLoop rest { params with Name := some vString }
    else .error (GoError.Errorf (unsupportedFilterMessage k))

/-- Lines 89-106: the filter block, entered only when `d.GetOk("filter")` reports the set. -/
def filterBlock (d : ResourceData) (params : DcimFrontPortsListParams) :
    Except GoError DcimFrontPortsListParams :=
  match GetOkFilter d with
  | some filterParams => filterLoop filterParams params
  | none => .ok params

/-- Lines 120-124: the loop that appends the records whose name matches; `*frontPort.Name`
dereferences the record pointer and then the name pointer. -/
def matchLoop (re : RegexpLib) (pattern : String) :
    List (Option FrontPort) → Slice (Option FrontPort) → Except Panic (Slice (Option FrontPort))
  | [], filteredFrontPorts => .ok filteredFrontPorts
  | frontPort :: rest, filteredFrontPorts =>
    match frontPort with
    | none => .error Panic.nilDereference
    | some fp =>
      match fp.Name with
      | none => .error Panic.nilDereference
      | some name =>
        if re.MatchString pattern name then
          matchLoop re pattern rest (appendSlice filteredFrontPorts frontPort)
        else matchLoop re pattern rest filteredFrontPorts

/-- Lines 117-127: the post-filter. `nameRegex` is the result of `d.GetOk("name_regex")`. -/
def postFilter (re : RegexpLib) (nameRegex : Option String) (results : Slice (Option FrontPort)) :
    Except Panic (Slice (Option FrontPort)) :=
  match nameRegex with
  | some pattern =>
    if re.compiles pattern then matchLoop re pattern (rangeOf results) none
    else .error (Panic.mustCompile pattern)
  | none => .ok results

/-- Lines 142-144: the loop collecting the tag ids; `t.ID` dereferences the tag pointer. -/
def tagLoop : List (Option NestedTag) → Slice Int → Except Panic (Slice Int)
  | [], tags => .ok tags
  | t :: rest, tags =>
    match t with
    | none => .error Panic.nilDereference
    | some tag => tagLoop rest (appendSlice tags tag.ID)

/-- Lines 131-149: the body of the projection loop for one record pointer. -/
def projectPort (frontPort : Option FrontPort) : Except Panic Mapping :=
  match frontPort with
  | none => .error Panic.nilDereference
  | some fp =>
    let mapping := makeMapping
    let mapping := setKey mapping "id" (Value.int64 fp.ID)
    let mapping :=
      if fp.Description ≠ "" then setKey mapping "description" (Value.string fp.Description)
      else mapping
    let mapping := setKey mapping "occupied" (Value.bool fp.Occupied)
    let mapping :=
      match fp.Name with
      | some name => setKey mapping "name" (Value.string name)
      | none => mapping
    let tagged : Except Panic Mapping :=
      match fp.Tags with
      | some ts =>
        match tagLoop ts none with
        | .ok tags => .ok (setKey mapping "tag_ids" (Value.int64s tags))
        | .error p => .error p
      | none => .ok mapping
    match tagged with
    | .error p => .error p
    | .ok mapping =>
      match fp.Device with
      | none => .error Panic.nilDereference
      | some device =>
        let mapping := setKey mapping "device_id" (Value.int64 device.ID)
        let mapping := setKey mapping "label" (Value.string fp.Label)
        .ok mapping

/-- Lines 129-152: the projection loop, appending one map per record to `s`. -/
def projectLoop : List (Option FrontPort) → Slice Mapping → Except Panic (Slice Mapping)
  | [], s => .ok s
  | frontPort :: rest, s =>
    match projectPort frontPort with
    | .error p => .error p
    | .ok mapping => projectLoop rest (appendSlice s mapping)

/-! ## The read functions -/

/-- The function `dataSourceNetboxDeviceFrontPortsRead(d, m)`. -/
def dataSourceNetboxDeviceFrontPortsRead (rt : Runtime) (d : ResourceData) (m : NetBoxAPI) :
    ReadResult :=
  let params := NewDcimFrontPortsListParams
  match filterBlock d params with
  | .error e => ⟨Outcome.error e, d, []⟩
  | .ok params =>
    match m.DcimFrontPortsList params with
    | .error err => ⟨Outcome.error (GoError.client err), d, [params]⟩
    | .ok res =>
      match res.Count with
      | none => ⟨Outcome.panic Panic.nilDereference, d, [params]⟩
      | some count =>
        if count = 0 then ⟨Outcome.error (GoError.New "no result"), d, [params]⟩
        else
          match postFilter rt.regexp (GetOkNameRegex d) res.Results with
          | .error p => ⟨Outcome.panic p, d, [params]⟩
          | .ok filteredFrontPorts =>
            match projectLoop (rangeOf filteredFrontPorts) none with
            | .error p => ⟨Outcome.panic p, d, [params]⟩
            | .ok s =>
              let d := d.SetId rt.UniqueId
              match rt.Set "front_ports" s with
              | some e => ⟨Outcome.error (GoError.schema e), d, [params]⟩
              | none => ⟨Outcome.nil, d.write "front_ports" s, [params]⟩

/-- The function `dataSourceNetboxDeviceRearPortsRead(d, m)`. -/
def dataSourceNetboxDeviceRearPortsRead (rt : Runtime) (d : ResourceData) (m : NetBoxAPI) :
    ReadResult :=
  let params := NewDcimRearPortsListParams
  match filterBlock d params with
  | .error e => ⟨Outcome.error e, d, []⟩
  | .ok params =>
    match m.DcimRearPortsList params with
    | .error err => ⟨Outcome.error (GoError.client err), d, [params]⟩
    | .ok res =>
      match res.Count with
      | none => ⟨Outcome.panic Panic.nilDereference, d, [params]⟩
      | some count =>
        if count = 0 then ⟨Outcome.error (GoError.New "no result"), d, [params]⟩
        else
          match postFilter rt.regexp (GetOkNameRegex d) res.Results with
          | .error p => ⟨Outcome.panic p, d, [params]⟩
          | .ok filteredrearPorts =>
            match projectLoop (rangeOf filteredrearPorts) none with
            | .error p => ⟨Outcome.panic p, d, [params]⟩
            | .ok s =>
              let d := d.SetId rt.UniqueId
              match rt.Set "rear_ports" s with
              | some e => ⟨Outcome.error (GoError.schema e), d, [params]⟩
              | none => ⟨Outcome.nil, d.write "rear_ports" s, [params]⟩

/-- The common shape of the two read functions: the list endpoint called and the key of the
attribute written are the only differences between them. -/
def portsRead (list : DcimFrontPortsListParams → Except String Payload) (key : String)
    (rt : Runtime) (d : ResourceData) : ReadResult :=
  match filterBlock d NewDcimFrontPortsListParams with
  | .error e => ⟨Outcome.error e, d, []⟩
  | .ok params =>
    match list params with
    | .error err => ⟨Outcome.error (GoError.client err), d, [params]⟩
    | .ok res =>
      match res.Count with
      | none => ⟨Outcome.panic Panic.nilDereference, d, [params]⟩
      | some count =>
        if count = 0 then ⟨Outcome.error (GoError.New "no result"), d, [params]⟩
        else
          match postFilter rt.regexp (GetOkNameRegex d) res.Results with
          | .error p => ⟨Outcome.panic p, d, [params]⟩
          | .ok filtered =>
            match projectLoop (rangeOf filtered) none with
            | .error p => ⟨Outcome.panic p, d, [params]⟩
            | .ok s =>
              match rt.Set key s with
              | some e => ⟨Outcome.error (GoError.schema e), d.SetId rt.UniqueId, [params]⟩
              | none => ⟨Outcome.nil, (d.SetId rt.UniqueId).write key s, [params]⟩

/-! ## Concrete collaborators used to evaluate the read functions -/

/-- Whether the text starts with the literal. -/
def startsWithLit : List Char → List Char → Bool
  | [], _ => true
  | _ :: _, [] => false
  | p :: ps, c :: cs => p == c && startsWithLit ps cs

/-- Whether the literal occurs somewhere in the text. -/
def containsLit (lit : List Char) : List Char → Bool
  | [] => startsWithLit lit []
  | c :: cs => startsWithLit lit (c :: cs) || containsLit lit cs

/-- The package `regexp` on patterns made of letters and digits only: such a pattern
compiles and matches the strings that contain it. Every other pattern is outside this
fragment and is reported as not compiling, which is what Go does for `"("`, the only such
pattern evaluated below. -/
def literalRegexp : RegexpLib where
  compiles := fun pattern => pattern.toList.all Char.isAlphanum
  MatchString := fun pattern s => containsLit pattern.toList s.toList

/-- The three filter names the `switch` of the filter loop has a `case` for. -/
def recognized (k : String) : Prop :=
  k = "device_id" ∨ k = "device_name" ∨ k = "name"

instance (k : String) : Decidable (recognized k) := by
  unfold recognized; infer_instance

/-- A parameter field that went from `before` to `after` while the entries `fs` were
processed is set from `fs` under the name `key`: either some entry of `fs` has that name
and the field holds the value of such an entry, or no entry has it and the field is
untouched. -/
def SetFrom (fs : List FilterEntry) (key : String) (before after : Option String) : Prop :=
  (∃ f ∈ fs, f.name = key ∧ after = some f.value) ∨ ((∀ f ∈ fs, f.name ≠ key) ∧ after = before)

/-- The list a read result holds under the attribute `key`; empty when nothing was
written under it. -/
def published (r : ReadResult) (key : String) : List Mapping :=
  match r.d.attrs key with
  | some s => rangeOf s
  | none => []

/-- The slice a loop builds from a nil slice by one `append` per element of `xs`. -/
def sliceOf {α : Type} (xs : List α) : Slice α :=
  xs.foldl appendSlice none

/-- The test of line 121 on a record pointer whose record and name are not nil. -/
def nameMatches (re : RegexpLib) (pattern : String) (frontPort : Option FrontPort) : Bool :=
  match frontPort with
  | some fp =>
    match fp.Name with
    | some name => re.MatchString pattern name
    | none => false
  | none => false

/-- A run-time environment whose `d.Set` succeeds. -/
def exampleRuntime : Runtime where
  regexp := literalRegexp
  UniqueId := "terraform-20240101000000000000000001"
  Set := fun _ _ => none

/-- A run-time environment whose `d.Set` reports an error. -/
def failingSetRuntime : Runtime where
  regexp := literalRegexp
  UniqueId := "terraform-20240101000000000000000001"
  Set := fun _ _ => some "front_ports: invalid value"

/-- Resource data before a first read: no identifier, nothing written. -/
def newResourceData (filter : List FilterEntry) (name_regex : Option String) : ResourceData where
  filter := filter
  name_regex := name_regex
  Id := ""
  attrs := fun _ => none

/-- A client whose two list endpoints answer every request with the given payload. -/
def apiReturning (res : Payload) : NetBoxAPI where
  DcimFrontPortsList := fun _ => .ok res
  DcimRearPortsList := fun _ => .ok res

/-- A port record with the given id, name, label and tags on device 10, not occupied and
without description. -/
def portNamed (id : Int) (name : Option String) (label : String)
    (tags : Slice (Option NestedTag)) : FrontPort where
  ID := id
  Description := ""
  Occupied := false
  Name := name
  Tags := tags
  Device := some { ID := 10 }
  Label := label

/-- The sublist of the remote results the post-filter is to keep: all of them when
`d.GetOk("name_regex")` reports no pattern, and otherwise the records whose name the
pattern matches. -/
def keptBy (re : RegexpLib) (nameRegex : Option String) (results : Slice (Option FrontPort)) :
    List (Option FrontPort) :=
  match nameRegex with
  | none => rangeOf results
  | some pattern => (rangeOf results).filter (nameMatches re pattern)

/-- The read result `r` publishes, under `key`, the projection of the records `kept`, in
their order: whenever every record of `kept` projects and `d.Set` accepts the list, the
read succeeds and holds exactly the projected maps; and a read that succeeded holds exactly
the projected maps. -/
def PublishesProjection (rt : Runtime) (key : String) (kept : List (Option FrontPort))
    (r : ReadResult) : Prop :=
  (∀ ms, List.Forall₂ (fun p mp => projectPort p = .ok mp) kept ms →
      rt.Set key (sliceOf ms) = none → r.outcome = Outcome.nil ∧ published r key = ms)
  ∧ (r.outcome = Outcome.nil →
      List.Forall₂ (fun p mp => projectPort p = .ok mp) kept (published r key))

/-- A configuration with the filter `device_name = sw1` and the pattern `eth`. -/
def ethData : ResourceData :=
  newResourceData [⟨"device_name", "sw1"⟩] (some "eth")

/-- A response of count 3 with ports named `eth0`, `eth1` and `mgmt0`. -/
def ethPayload : Payload where
  Count := some 3
  Results := some [some (portNamed 1 (some "eth0") "A" none),
    some (portNamed 2 (some "eth1") "B" none), some (portNamed 3 (some "mgmt0") "C" none)]

/-- A response of count 2 whose second record has a null name. -/
def nullNamePayload : Payload where
  Count := some 2
  Results := some [some (portNamed 1 (some "eth0") "A" none),
    some (portNamed 2 none "B" none)]

/-- A configuration without filter whose `name_regex` is `(`, which does not compile. -/
def badPatternData : ResourceData :=
  newResourceData [] (some "(")

/-- The map the projection builds for a record whose tags were collected into `tags`
(`none` when the block of lines 140-146 is skipped) and whose device is `device`. -/
def projected (fp : FrontPort) (tags : Option (Slice Int)) (device : NestedDevice) : Mapping :=
  let mapping := setKey makeMapping "id" (Value.int64 fp.ID)
  let mapping :=
    if fp.Description ≠ "" then setKey mapping "description" (Value.string fp.Description)
    else mapping
  let mapping := setKey mapping "occupied" (Value.bool fp.Occupied)
  let mapping :=
    match fp.Name with
    | some name => setKey mapping "name" (Value.string name)
    | none => mapping
  let mapping :=
    match tags with
    | some tags => setKey mapping "tag_ids" (Value.int64s tags)
    | none => mapping
  let mapping := setKey mapping "device_id" (Value.int64 device.ID)
  setKey mapping "label" (Value.string fp.Label)

/-- The keys the projection can write. -/
def projectedKeys : List String :=
  ["id", "description", "occupied", "name", "tag_ids", "device_id", "label"]

/-- A port record with description `uplink` and the single tag 7. -/
def uplinkPort : FrontPort where
  ID := 5
  Description := "uplink"
  Occupied := true
  Name := some "fp5"
  Tags := some [some { ID := 7 }]
  Device := some { ID := 10 }
  Label := ""

/-- The first record of the end-to-end scenario: its tag sequence is present but empty. -/
def scenarioPort1 : FrontPort where
  ID := 1
  Description := ""
  Occupied := true
  Name := some "fp1"
  Tags := some []
  Device := some { ID := 10 }
  Label := "A"

/-- The second record of the end-to-end scenario, with the single tag 3. -/
def scenarioPort2 : FrontPort where
  ID := 2
  Description := ""
  Occupied := false
  Name := some "fp2"
  Tags := some [some { ID := 3 }]
  Device := some { ID := 10 }
  Label := "B"

/-- The response of the end-to-end scenario. -/
def scenarioPayload : Payload where
  Count := some 2
  Results := some [some scenarioPort1, some scenarioPort2]

/-- The configuration of the end-to-end scenario: `device_name = sw1`, no `name_regex`. -/
def scenarioData : ResourceData :=
  newResourceData [⟨"device_name", "sw1"⟩] none

/-- What a read that ended as `r` did to the resource data `d`: an error other than one of
`d.Set`, and a panic, leave it as it was; an error of `d.Set` is returned after the
identifier was assigned, with nothing written; a client error is returned unchanged; and
success leaves the identifier and the whole projected list written. -/
def ReadEffect (list : DcimFrontPortsListParams → Except String Payload) (key : String)
    (rt : Runtime) (d : ResourceData) (r : ReadResult) : Prop :=
  (∀ e, r.outcome = Outcome.error e → (∀ msg, e ≠ GoError.schema msg) → r.d = d)
  ∧ (∀ msg, r.outcome = Outcome.error (GoError.schema msg) →
      r.d = d.SetId rt.UniqueId ∧ ∃ s, rt.Set key s = some msg)
  ∧ (∀ p, r.outcome = Outcome.panic p → r.d = d)
  ∧ (∀ params err, filterBlock d NewDcimFrontPortsListParams = .ok params →
      list params = .error err → r = ⟨Outcome.error (GoError.client err), d, [params]⟩)
  ∧ (r.outcome = Outcome.nil →
      ∃ params res filtered s, filterBlock d NewDcimFrontPortsListParams = .ok params
        ∧ list params = .ok res
        ∧ postFilter rt.regexp (GetOkNameRegex d) res.Results = .ok filtered
        ∧ projectLoop (rangeOf filtered) none = .ok s
        ∧ r.d = (d.SetId rt.UniqueId).write key s)

theorem frontRead_eq_portsRead (rt : Runtime) (d : ResourceData) (m : NetBoxAPI) :
    dataSourceNetboxDeviceFrontPortsRead rt d m
      = portsRead m.DcimFrontPortsList "front_ports" rt d := by
  rfl

theorem rearRead_eq_portsRead (rt : Runtime) (d : ResourceData) (m : NetBoxAPI) :
    dataSourceNetboxDeviceRearPortsRead rt d m
      = portsRead m.DcimRearPortsList "rear_ports" rt d := by
  rfl

/-! ## The filter loop -/

theorem filterBlock_eq (d : ResourceData) (params : DcimFrontPortsListParams) :
    filterBlock d params = filterLoop d.filter params := by
  unfold filterBlock GetOkFilter
  by_cases h : d.filter = []
  · simp [h, filterLoop]
  · simp [h]

theorem setFrom_cons {f : FilterEntry} {rest : List FilterEntry} {key : String}
    {before mid after : Option String} (h : SetFrom rest key mid after)
    (hf : (f.name = key ∧ mid = some f.value) ∨ (f.name ≠ key ∧ mid = before)) :
    SetFrom (f :: rest) key before after := by
  rcases h with ⟨g, hg, hk, hv⟩ | ⟨hno, hv⟩
  · exact Or.inl ⟨g, List.mem_cons_of_mem _ hg, hk, hv⟩
  · rcases hf with ⟨hk, hm⟩ | ⟨hk, hm⟩
    · exact Or.inl ⟨f, List.mem_cons_self _ _, hk, by rw [hv, hm]⟩
    · refine Or.inr ⟨?_, by rw [hv, hm]⟩
      intro g hg
      rcases List.mem_cons.mp hg with rfl | hg
      · exact hk
      · exact hno g hg

theorem filterLoop_recognized (fs : List FilterEntry) :
    ∀ p0 : DcimFrontPortsListParams, (∀ f ∈ fs, recognized f.name) →
      ∃ p, filterLoop fs p0 = .ok p
        ∧ SetFrom fs "device_id" p0.DeviceID p.DeviceID
        ∧ SetFrom fs "device_name" p0.Device p.Device
        ∧ SetFrom fs "name" p0.Name p.Name := by
  induction fs with
  | nil =>
    intro p0 _
    exact ⟨p0, rfl, Or.inr ⟨by simp, rfl⟩, Or.inr ⟨by simp, rfl⟩, Or.inr ⟨by simp, rfl⟩⟩
  | cons f rest ih =>
    intro p0 h
    have hrest : ∀ g ∈ rest, recognized g.name := fun g hg => h g (List.mem_cons_of_mem _ hg)
    rcases h f (List.mem_cons_self _ _) with hk | hk | hk
    · obtain ⟨p, hp, h1, h2, h3⟩ := ih { p0 with DeviceID := some f.value } hrest
      refine ⟨p, by simp [filterLoop, hk, hp], ?_, ?_, ?_⟩
      · exact setFrom_cons h1 (Or.inl ⟨hk, rfl⟩)
      · exact setFrom_cons h2 (Or.inr ⟨by rw [hk]; decide, rfl⟩)
      · exact setFrom_cons h3 (Or.inr ⟨by rw [hk]; decide, rfl⟩)
    · obtain ⟨p, hp, h1, h2, h3⟩ := ih { p0 with Device := some f.value } hrest
      refine ⟨p, by simp [filterLoop, hk, hp], ?_, ?_, ?_⟩
      · exact setFrom_cons h1 (Or.inr ⟨by rw [hk]; decide, rfl⟩)
      · exact setFrom_cons h2 (Or.inl ⟨hk, rfl⟩)
      · exact setFrom_cons h3 (Or.inr ⟨by rw [hk]; decide, rfl⟩)
    · obtain ⟨p, hp, h1, h2, h3⟩ := ih { p0 with Name := some f.value } hrest
      refine ⟨p, by simp [filterLoop, hk, hp], ?_, ?_, ?_⟩
      · exact setFrom_cons h1 (Or.inr ⟨by rw [hk]; decide, rfl⟩)
      · exact setFrom_cons h2 (Or.inr ⟨by rw [hk]; decide, rfl⟩)
      · exact setFrom_cons h3 (Or.inl ⟨hk, rfl⟩)

theorem filterLoop_unrecognized (fs : List FilterEntry) :
    ∀ p0 : DcimFrontPortsListParams, (∃ f ∈ fs, ¬ recognized f.name) →
      ∃ f ∈ fs, ¬ recognized f.name
        ∧ filterLoop fs p0 = .error (GoError.Errorf (unsupportedFilterMessage f.name)) := by
  induction fs with
  | nil =>
    intro p0 h
    obtain ⟨f, hf, _⟩ := h
    simp at hf
  | cons f rest ih =>
    intro p0 h
    by_cases hk : recognized f.name
    · have hrest : ∃ g ∈ rest, ¬ recognized g.name := by
        obtain ⟨g, hg, hn⟩ := h
        rcases List.mem_cons.mp hg with rfl | hg
        · exact absurd hk hn
        · exact ⟨g, hg, hn⟩
      rcases hk with hk | hk | hk
      · obtain ⟨g, hg, hn, he⟩ := ih { p0 with DeviceID := some f.value } hrest
        exact ⟨g, List.mem_cons_of_mem _ hg, hn, by simp [filterLoop, hk, he]⟩
      · obtain ⟨g, hg, hn, he⟩ := ih { p0 with Device := some f.value } hrest
        exact ⟨g, List.mem_cons_of_mem _ hg, hn, by simp [filterLoop, hk, he]⟩
      · obtain ⟨g, hg, hn, he⟩ := ih { p0 with Name := some f.value } hrest
        exact ⟨g, List.mem_cons_of_mem _ hg, hn, by simp [filterLoop, hk, he]⟩
    · refine ⟨f, List.mem_cons_self _ _, hk, ?_⟩
      have h1 : f.name ≠ "device_id" := fun e => hk (Or.inl e)
      have h2 : f.name ≠ "device_name" := fun e => hk (Or.inr (Or.inl e))
      have h3 : f.name ≠ "name" := fun e => hk (Or.inr (Or.inr e))
      simp [filterLoop, h1, h2, h3]

theorem portsRead_calls_of_filter_ok (list : DcimFrontPortsListParams → Except String Payload)
    (key : String) (rt : Runtime) (d : ResourceData) (params : DcimFrontPortsListParams)
    (h : filterBlock d NewDcimFrontPortsListParams = .ok params) :
    (portsRead list key rt d).calls = [params] := by
  unfold portsRead
  rw [h]
  dsimp only
  repeat' split
  all_goals rfl

theorem portsRead_of_filter_error (list : DcimFrontPortsListParams → Except String Payload)
    (key : String) (rt : Runtime) (d : ResourceData) (e : GoError)
    (h : filterBlock d NewDcimFrontPortsListParams = .error e) :
    portsRead list key rt d = ⟨Outcome.error e, d, []⟩ := by
  unfold portsRead
  rw [h]

/-- C1: when every entry of the filter set has one of the names `device_id`,
`device_name`, `name`, the filter loop of both read functions returns no error, and the
parameters it yields (the ones both reads send) have `DeviceID`, `Device` and `Name` set
exactly for the names that occur, each to the unparsed value of an entry with that name,
and unset for the names that do not occur. -/
theorem filter_loop_sets_exactly_named_fields (rt : Runtime) (d : ResourceData) (m : NetBoxAPI)
    (h : ∀ f ∈ d.filter, recognized f.name) :
    ∃ params, filterBlock d NewDcimFrontPortsListParams = .ok params
      ∧ filterBlock d NewDcimRearPortsListParams = .ok params
      ∧ (dataSourceNetboxDeviceFrontPortsRead rt d m).calls = [params]
      ∧ (dataSourceNetboxDeviceRearPortsRead rt d m).calls = [params]
      ∧ SetFrom d.filter "device_id" none params.DeviceID
      ∧ SetFrom d.filter "device_name" none params.Device
      ∧ SetFrom d.filter "name" none params.Name := by
  obtain ⟨p, hp, h1, h2, h3⟩ := filterLoop_recognized d.filter NewDcimFrontPortsListParams h
  have hb : filterBlock d NewDcimFrontPortsListParams = .ok p := by rw [filterBlock_eq, hp]
  refine ⟨p, hb, hb, ?_, ?_, h1, h2, h3⟩
  · rw [frontRead_eq_portsRead]; exact portsRead_calls_of_filter_ok _ _ _ _ _ hb
  · rw [rearRead_eq_portsRead]; exact portsRead_calls_of_filter_ok _ _ _ _ _ hb

theorem filter_loop_sets_exactly_named_fields_witness :
    (∀ f ∈ (newResourceData [⟨"device_name", "sw1"⟩, ⟨"device_id", "0042"⟩] none).filter,
        recognized f.name)
    ∧ ∃ params,
      filterBlock (newResourceData [⟨"device_name", "sw1"⟩, ⟨"device_id", "0042"⟩] none)
          NewDcimFrontPortsListParams = .ok params
      ∧ filterBlock (newResourceData [⟨"device_name", "sw1"⟩, ⟨"device_id", "0042"⟩] none)
          NewDcimRearPortsListParams = .ok params
      ∧ (dataSourceNetboxDeviceFrontPortsRead exampleRuntime
          (newResourceData [⟨"device_name", "sw1"⟩, ⟨"device_id", "0042"⟩] none)
          (apiReturning ⟨some 0, none⟩)).calls = [params]
      ∧ (dataSourceNetboxDeviceRearPortsRead exampleRuntime
          (newResourceData [⟨"device_name", "sw1"⟩, ⟨"device_id", "0042"⟩] none)
          (apiReturning ⟨some 0, none⟩)).calls = [params]
      ∧ SetFrom [⟨"device_name", "sw1"⟩, ⟨"device_id", "0042"⟩] "device_id" none params.DeviceID
      ∧ SetFrom [⟨"device_name", "sw1"⟩, ⟨"device_id", "0042"⟩] "device_name" none params.Device
      ∧ SetFrom [⟨"device_name", "sw1"⟩, ⟨"device_id", "0042"⟩] "name" none params.Name :=
  ⟨by decide,
    filter_loop_sets_exactly_named_fields exampleRuntime
      (newResourceData [⟨"device_name", "sw1"⟩, ⟨"device_id", "0042"⟩] none)
      (apiReturning ⟨some 0, none⟩) (by decide)⟩

/-- C2: when the filter set has an entry whose name is none of `device_id`, `device_name`,
`name`, both reads return the error `'<name>' is not a supported filter parameter` for the
name of such an entry, having issued no remote call and left the resource data (identifier
and output) as it was, in whatever order the entries are listed. -/
theorem unrecognized_filter_fails_before_remote_call (rt : Runtime) (d : ResourceData)
    (m : NetBoxAPI) (h : ∃ f ∈ d.filter, ¬ recognized f.name) :
    ∃ f ∈ d.filter, ¬ recognized f.name
      ∧ dataSourceNetboxDeviceFrontPortsRead rt d m
          = ⟨Outcome.error (GoError.Errorf (unsupportedFilterMessage f.name)), d, []⟩
      ∧ dataSourceNetboxDeviceRearPortsRead rt d m
          = ⟨Outcome.error (GoError.Errorf (unsupportedFilterMessage f.name)), d, []⟩
      ∧ (GoError.Errorf (unsupportedFilterMessage f.name)).Error
          = "\x27" ++ f.name ++ "\x27 is not a supported filter parameter" := by
  obtain ⟨f, hf, hn, he⟩ := filterLoop_unrecognized d.filter NewDcimFrontPortsListParams h
  have hb : filterBlock d NewDcimFrontPortsListParams
      = .error (GoError.Errorf (unsupportedFilterMessage f.name)) := by
    rw [filterBlock_eq, he]
  refine ⟨f, hf, hn, ?_, ?_, rfl⟩
  · rw [frontRead_eq_portsRead]; exact portsRead_of_filter_error _ _ _ _ _ hb
  · rw [rearRead_eq_portsRead]; exact portsRead_of_filter_error _ _ _ _ _ hb

theorem unrecognized_filter_fails_before_remote_call_witness :
    (∃ f ∈ (newResourceData [⟨"name", "fp1"⟩, ⟨"site", "ams"⟩] none).filter,
        ¬ recognized f.name)
    ∧ ∃ f ∈ (newResourceData [⟨"name", "fp1"⟩, ⟨"site", "ams"⟩] none).filter,
      ¬ recognized f.name
      ∧ dataSourceNetboxDeviceFrontPortsRead exampleRuntime
          (newResourceData [⟨"name", "fp1"⟩, ⟨"site", "ams"⟩] none) (apiReturning ⟨some 1, none⟩)
          = ⟨Outcome.error (GoError.Errorf (unsupportedFilterMessage f.name)),
              newResourceData [⟨"name", "fp1"⟩, ⟨"site", "ams"⟩] none, []⟩
      ∧ dataSourceNetboxDeviceRearPortsRead exampleRuntime
          (newResourceData [⟨"name", "fp1"⟩, ⟨"site", "ams"⟩] none) (apiReturning ⟨some 1, none⟩)
          = ⟨Outcome.error (GoError.Errorf (unsupportedFilterMessage f.name)),
              newResourceData [⟨"name", "fp1"⟩, ⟨"site", "ams"⟩] none, []⟩
      ∧ (GoError.Errorf (unsupportedFilterMessage f.name)).Error
          = "\x27" ++ f.name ++ "\x27 is not a supported filter parameter" :=
  ⟨by decide,
    unrecognized_filter_fails_before_remote_call exampleRuntime
      (newResourceData [⟨"name", "fp1"⟩, ⟨"site", "ams"⟩] none) (apiReturning ⟨some 1, none⟩)
      (by decide)⟩

/-! ## The remote call and the count check -/

theorem portsRead_of_client_error (list : DcimFrontPortsListParams → Except String Payload)
    (key : String) (rt : Runtime) (d : ResourceData) (params : DcimFrontPortsListParams)
    (err : String) (hf : filterBlock d NewDcimFrontPortsListParams = .ok params)
    (hl : list params = .error err) :
    portsRead list key rt d = ⟨Outcome.error (GoError.client err), d, [params]⟩ := by
  unfold portsRead
  rw [hf]
  simp only [hl]

theorem portsRead_of_count_zero (list : DcimFrontPortsListParams → Except String Payload)
    (key : String) (rt : Runtime) (d : ResourceData) (params : DcimFrontPortsListParams)
    (res : Payload) (hf : filterBlock d NewDcimFrontPortsListParams = .ok params)
    (hl : list params = .ok res) (hc : res.Count = some 0) :
    portsRead list key rt d = ⟨Outcome.error (GoError.New "no result"), d, [params]⟩ := by
  unfold portsRead
  rw [hf]
  simp only [hl, hc, if_true]

theorem portsRead_of_count_nonzero (list : DcimFrontPortsListParams → Except String Payload)
    (key : String) (rt : Runtime) (d : ResourceData) (params : DcimFrontPortsListParams)
    (res : Payload) (count : Int) (hf : filterBlock d NewDcimFrontPortsListParams = .ok params)
    (hl : list params = .ok res) (hc : res.Count = some count) (h0 : count ≠ 0) :
    portsRead list key rt d =
      match postFilter rt.regexp (GetOkNameRegex d) res.Results with
      | .error p => ⟨Outcome.panic p, d, [params]⟩
      | .ok filtered =>
        match projectLoop (rangeOf filtered) none with
        | .error p => ⟨Outcome.panic p, d, [params]⟩
        | .ok s =>
          match rt.Set key s with
          | some e => ⟨Outcome.error (GoError.schema e), d.SetId rt.UniqueId, [params]⟩
          | none => ⟨Outcome.nil, (d.SetId rt.UniqueId).write key s, [params]⟩ := by
  unfold portsRead
  rw [hf]
  simp only [hl, hc, h0, if_false]

theorem portsRead_nonzero_errors (list : DcimFrontPortsListParams → Except String Payload)
    (key : String) (rt : Runtime) (d : ResourceData) (params : DcimFrontPortsListParams)
    (res : Payload) (count : Int) (hf : filterBlock d NewDcimFrontPortsListParams = .ok params)
    (hl : list params = .ok res) (hc : res.Count = some count) (h0 : count ≠ 0) :
    (portsRead list key rt d).outcome ≠ Outcome.error (GoError.New "no result")
      ∧ ∀ e, (portsRead list key rt d).outcome = Outcome.error e →
          ∃ s msg, rt.Set key s = some msg ∧ e = GoError.schema msg := by
  rw [portsRead_of_count_nonzero list key rt d params res count hf hl hc h0]
  constructor
  · repeat' split
    all_goals simp
  · intro e
    split
    · simp
    · split
      · simp
      · rename_i s _
        split
        · rename_i msg hs
          intro h
          refine ⟨s, msg, hs, ?_⟩
          simp only [Outcome.error.injEq] at h
          exact h.symm
        · simp

/-- C3: for a filter set of recognized names and a successful response whose count is 0,
both reads return the error `no result`, whatever the results sequence and `name_regex`
are, leaving the resource data (identifier and output) as it was; and for a successful
response whose count is not 0 neither read returns that error: the only error it can then
return is the one `d.Set` reports. -/
theorem zero_count_is_no_result (rt : Runtime) (d : ResourceData) (m : NetBoxAPI)
    (h : ∀ f ∈ d.filter, recognized f.name) :
    ∃ params, filterBlock d NewDcimFrontPortsListParams = .ok params
      ∧ (GoError.New "no result").Error = "no result"
      ∧ (∀ res, m.DcimFrontPortsList params = .ok res → res.Count = some 0 →
          dataSourceNetboxDeviceFrontPortsRead rt d m
            = ⟨Outcome.error (GoError.New "no result"), d, [params]⟩)
      ∧ (∀ res, m.DcimRearPortsList params = .ok res → res.Count = some 0 →
          dataSourceNetboxDeviceRearPortsRead rt d m
            = ⟨Outcome.error (GoError.New "no result"), d, [params]⟩)
      ∧ (∀ res count, m.DcimFrontPortsList params = .ok res → res.Count = some count →
          count ≠ 0 →
          (dataSourceNetboxDeviceFrontPortsRead rt d m).outcome
              ≠ Outcome.error (GoError.New "no result")
            ∧ ∀ e, (dataSourceNetboxDeviceFrontPortsRead rt d m).outcome = Outcome.error e →
                ∃ s msg, rt.Set "front_ports" s = some msg ∧ e = GoError.schema msg)
      ∧ (∀ res count, m.DcimRearPortsList params = .ok res → res.Count = some count →
          count ≠ 0 →
          (dataSourceNetboxDeviceRearPortsRead rt d m).outcome
              ≠ Outcome.error (GoError.New "no result")
            ∧ ∀ e, (dataSourceNetboxDeviceRearPortsRead rt d m).outcome = Outcome.error e →
                ∃ s msg, rt.Set "rear_ports" s = some msg ∧ e = GoError.schema msg) := by
  obtain ⟨p, hp, -, -, -⟩ := filterLoop_recognized d.filter NewDcimFrontPortsListParams h
  have hb : filterBlock d NewDcimFrontPortsListParams = .ok p := by rw [filterBlock_eq, hp]
  refine ⟨p, hb, rfl, ?_, ?_, ?_, ?_⟩
  · intro res hl hc
    rw [frontRead_eq_portsRead]
    exact portsRead_of_count_zero _ _ _ _ _ _ hb hl hc
  · intro res hl hc
    rw [rearRead_eq_portsRead]
    exact portsRead_of_count_zero _ _ _ _ _ _ hb hl hc
  · intro res count hl hc h0
    rw [frontRead_eq_portsRead]
    exact portsRead_nonzero_errors _ _ _ _ _ _ _ hb hl hc h0
  · intro res count hl hc h0
    rw [rearRead_eq_portsRead]
    exact portsRead_nonzero_errors _ _ _ _ _ _ _ hb hl hc h0

theorem zero_count_is_no_result_witness :
    (∀ f ∈ (newResourceData [⟨"device_name", "sw1"⟩] (some "eth")).filter, recognized f.name)
    ∧ dataSourceNetboxDeviceFrontPortsRead exampleRuntime
        (newResourceData [⟨"device_name", "sw1"⟩] (some "eth"))
        (apiReturning ⟨some 0, some [some (portNamed 1 (some "eth0") "A" none)]⟩)
      = ⟨Outcome.error (GoError.New "no result"),
          newResourceData [⟨"device_name", "sw1"⟩] (some "eth"),
          [⟨none, some "sw1", none⟩]⟩
    ∧ (dataSourceNetboxDeviceRearPortsRead exampleRuntime
        (newResourceData [⟨"device_name", "sw1"⟩] (some "eth"))
        (apiReturning ⟨some 1, some [some (portNamed 1 (some "mgmt0") "A" none)]⟩)).outcome
      ≠ Outcome.error (GoError.New "no result") := by
  refine ⟨by decide, ?_, ?_⟩
  · obtain ⟨p, hb, -, hz, -⟩ := zero_count_is_no_result exampleRuntime
      (newResourceData [⟨"device_name", "sw1"⟩] (some "eth"))
      (apiReturning ⟨some 0, some [some (portNamed 1 (some "eth0") "A" none)]⟩) (by decide)
    have hp : p = ⟨none, some "sw1", none⟩ := by
      have hb2 : filterBlock (newResourceData [⟨"device_name", "sw1"⟩] (some "eth"))
          NewDcimFrontPortsListParams = .ok ⟨none, some "sw1", none⟩ := by rfl
      rw [hb2] at hb
      exact (Except.ok.inj hb).symm
    rw [hz _ rfl rfl, hp]
  · obtain ⟨p, -, -, -, -, -, hn⟩ := zero_count_is_no_result exampleRuntime
      (newResourceData [⟨"device_name", "sw1"⟩] (some "eth"))
      (apiReturning ⟨some 1, some [some (portNamed 1 (some "mgmt0") "A" none)]⟩) (by decide)
    exact (hn _ 1 rfl rfl (by decide)).1

/-! ## The post-filter and the projection -/

theorem rangeOf_foldl_appendSlice {α : Type} (xs : List α) :
    ∀ s : Slice α, rangeOf (xs.foldl appendSlice s) = rangeOf s ++ xs := by
  induction xs with
  | nil => intro s; simp
  | cons x rest ih =>
    intro s
    rw [List.foldl_cons, ih]
    simp [appendSlice, rangeOf]

theorem rangeOf_sliceOf {α : Type} (xs : List α) : rangeOf (sliceOf xs) = xs := by
  unfold sliceOf
  rw [rangeOf_foldl_appendSlice]
  simp [rangeOf]

theorem matchLoop_eq (re : RegexpLib) (pattern : String) (l : List (Option FrontPort)) :
    ∀ acc : Slice (Option FrontPort), (∀ p ∈ l, ∃ fp, p = some fp ∧ fp.Name ≠ none) →
      matchLoop re pattern l acc
        = .ok ((l.filter (nameMatches re pattern)).foldl appendSlice acc) := by
  induction l with
  | nil => intro acc _; rfl
  | cons p rest ih =>
    intro acc h
    have hrest : ∀ q ∈ rest, ∃ fp, q = some fp ∧ fp.Name ≠ none :=
      fun q hq => h q (List.mem_cons_of_mem _ hq)
    obtain ⟨fp, rfl, hname⟩ := h p (List.mem_cons_self _ _)
    obtain ⟨name, hn⟩ := Option.ne_none_iff_exists'.mp hname
    by_cases hm : re.MatchString pattern name = true
    · have hk : nameMatches re pattern (some fp) = true := by simp [nameMatches, hn, hm]
      simp only [matchLoop, hn, hm, if_true, List.filter_cons, hk, List.foldl_cons]
      exact ih _ hrest
    · have hk : nameMatches re pattern (some fp) = false := by simp [nameMatches, hn, hm]
      simp only [matchLoop, hn, hm, List.filter_cons, hk, Bool.false_eq_true, if_false]
      exact ih _ hrest

theorem matchLoop_nil_name (re : RegexpLib) (pattern : String) (l : List (Option FrontPort)) :
    ∀ acc : Slice (Option FrontPort), (∃ p ∈ l, ∀ fp, p = some fp → fp.Name = none) →
      matchLoop re pattern l acc = .error Panic.nilDereference := by
  induction l with
  | nil =>
    intro acc h
    obtain ⟨p, hp, _⟩ := h
    simp at hp
  | cons q rest ih =>
    intro acc h
    cases q with
    | none => rfl
    | some fq =>
      cases hq : fq.Name with
      | none => simp [matchLoop, hq]
      | some name =>
        have hrest : ∃ p ∈ rest, ∀ fp, p = some fp → fp.Name = none := by
          obtain ⟨p, hp, hnil⟩ := h
          rcases List.mem_cons.mp hp with rfl | hp
          · have := hnil fq rfl
            rw [hq] at this
            exact absurd this (by simp)
          · exact ⟨p, hp, hnil⟩
        simp only [matchLoop, hq]
        split
        · exact ih _ hrest
        · exact ih _ hrest

theorem projectLoop_ok_of_forall₂ (l : List (Option FrontPort)) :
    ∀ (acc : Slice Mapping) (ms : List Mapping),
      List.Forall₂ (fun p mp => projectPort p = .ok mp) l ms →
      projectLoop l acc = .ok (ms.foldl appendSlice acc) := by
  induction l with
  | nil =>
    intro acc ms h
    cases h
    rfl
  | cons p rest ih =>
    intro acc ms h
    cases h with
    | cons hp hrest =>
      simp only [projectLoop, hp, List.foldl_cons]
      exact ih _ _ hrest

theorem forall₂_of_projectLoop_ok (l : List (Option FrontPort)) :
    ∀ (acc s : Slice Mapping), projectLoop l acc = .ok s →
      ∃ ms, List.Forall₂ (fun p mp => projectPort p = .ok mp) l ms
        ∧ s = ms.foldl appendSlice acc := by
  induction l with
  | nil =>
    intro acc s h
    refine ⟨[], List.Forall₂.nil, ?_⟩
    simp only [projectLoop] at h
    exact (Except.ok.inj h).symm
  | cons p rest ih =>
    intro acc s h
    cases hp : projectPort p with
    | error e => simp [projectLoop, hp] at h
    | ok mp =>
      simp only [projectLoop, hp] at h
      obtain ⟨ms, hms, hs⟩ := ih _ _ h
      exact ⟨mp :: ms, List.Forall₂.cons hp hms, by simpa using hs⟩

theorem postFilter_eq_keptBy (re : RegexpLib) (nameRegex : Option String)
    (results : Slice (Option FrontPort))
    (hnames : ∀ p ∈ rangeOf results, ∃ fp, p = some fp ∧ fp.Name ≠ none)
    (hre : ∀ pattern, nameRegex = some pattern → re.compiles pattern = true) :
    ∃ filtered, postFilter re nameRegex results = .ok filtered
      ∧ rangeOf filtered = keptBy re nameRegex results := by
  cases nameRegex with
  | none => exact ⟨results, rfl, rfl⟩
  | some pattern =>
    refine ⟨((rangeOf results).filter (nameMatches re pattern)).foldl appendSlice none, ?_, ?_⟩
    · simp only [postFilter, hre pattern rfl, if_true]
      exact matchLoop_eq re pattern _ none hnames
    · rw [rangeOf_foldl_appendSlice]
      simp [rangeOf, keptBy]

theorem portsRead_publishes (list : DcimFrontPortsListParams → Except String Payload)
    (key : String) (rt : Runtime) (d : ResourceData) (params : DcimFrontPortsListParams)
    (res : Payload) (count : Int) (filtered : Slice (Option FrontPort))
    (hf : filterBlock d NewDcimFrontPortsListParams = .ok params)
    (hl : list params = .ok res) (hc : res.Count = some count) (h0 : count ≠ 0)
    (hpf : postFilter rt.regexp (GetOkNameRegex d) res.Results = .ok filtered) :
    PublishesProjection rt key (rangeOf filtered) (portsRead list key rt d) := by
  rw [portsRead_of_count_nonzero list key rt d params res count hf hl hc h0]
  simp only [hpf]
  constructor
  · intro ms hms hset
    have hpl := projectLoop_ok_of_forall₂ _ none ms hms
    have hset2 : rt.Set key (List.foldl appendSlice none ms) = none := hset
    simp only [hpl, hset2, true_and]
    simp only [published, ResourceData.write, if_true]
    exact rangeOf_sliceOf ms
  · intro hout
    cases hpl : projectLoop (rangeOf filtered) none with
    | error e => simp [hpl] at hout
    | ok s =>
      cases hs : rt.Set key s with
      | some e => simp [hpl, hs] at hout
      | none =>
        obtain ⟨ms, hms, hseq⟩ := forall₂_of_projectLoop_ok _ _ _ hpl
        simp only [hpl, hs, published, ResourceData.write, if_true]
        rw [hseq]
        have h2 : rangeOf (List.foldl appendSlice none ms) = ms := rangeOf_sliceOf ms
        rw [h2]
        exact hms

/-- C4: for a successful response with non-zero count whose records all have a non-null
name, the list either read publishes is the projection, applied in order, of the sublist
of the remote results kept by the post-filter (all results without `name_regex`, the
records whose name the pattern matches with it), which is a subsequence of the results in
their order; and on names `eth0`, `eth1`, `mgmt0` the pattern `eth` keeps the first two
records, in that order. -/
theorem published_list_is_projection_of_kept (rt : Runtime) (d : ResourceData) (m : NetBoxAPI)
    (params : DcimFrontPortsListParams) (res : Payload) (count : Int)
    (hf : filterBlock d NewDcimFrontPortsListParams = .ok params)
    (hc : res.Count = some count) (h0 : count ≠ 0)
    (hnames : ∀ p ∈ rangeOf res.Results, ∃ fp, p = some fp ∧ fp.Name ≠ none)
    (hre : ∀ pattern, GetOkNameRegex d = some pattern → rt.regexp.compiles pattern = true) :
    (keptBy rt.regexp (GetOkNameRegex d) res.Results).Sublist (rangeOf res.Results)
      ∧ (m.DcimFrontPortsList params = .ok res →
          PublishesProjection rt "front_ports" (keptBy rt.regexp (GetOkNameRegex d) res.Results)
            (dataSourceNetboxDeviceFrontPortsRead rt d m))
      ∧ (m.DcimRearPortsList params = .ok res →
          PublishesProjection rt "rear_ports" (keptBy rt.regexp (GetOkNameRegex d) res.Results)
            (dataSourceNetboxDeviceRearPortsRead rt d m))
      ∧ (∀ fp0 fp1 fp2 : FrontPort, fp0.Name = some "eth0" → fp1.Name = some "eth1" →
          fp2.Name = some "mgmt0" →
          postFilter literalRegexp (some "eth") (some [some fp0, some fp1, some fp2])
            = .ok (some [some fp0, some fp1])) := by
  obtain ⟨filtered, hpf, hkept⟩ :=
    postFilter_eq_keptBy rt.regexp (GetOkNameRegex d) res.Results hnames hre
  refine ⟨?_, ?_, ?_, ?_⟩
  · unfold keptBy
    cases GetOkNameRegex d with
    | none => exact List.Sublist.refl _
    | some pattern => exact List.filter_sublist _
  · intro hl
    rw [frontRead_eq_portsRead, ← hkept]
    exact portsRead_publishes _ _ _ _ _ _ _ _ hf hl hc h0 hpf
  · intro hl
    rw [rearRead_eq_portsRead, ← hkept]
    exact portsRead_publishes _ _ _ _ _ _ _ _ hf hl hc h0 hpf
  · intro fp0 fp1 fp2 h0 h1 h2
    have e0 : literalRegexp.MatchString "eth" "eth0" = true := by decide
    have e1 : literalRegexp.MatchString "eth" "eth1" = true := by decide
    have e2 : literalRegexp.MatchString "eth" "mgmt0" = false := by decide
    have ec : literalRegexp.compiles "eth" = true := by decide
    simp [postFilter, ec, rangeOf, matchLoop, h0, h1, h2, e0, e1, e2, appendSlice]

theorem published_list_is_projection_of_kept_witness :
    filterBlock ethData NewDcimFrontPortsListParams = .ok ⟨none, some "sw1", none⟩
    ∧ ethPayload.Count = some 3
    ∧ (∀ p ∈ rangeOf ethPayload.Results, ∃ fp, p = some fp ∧ fp.Name ≠ none)
    ∧ (keptBy exampleRuntime.regexp (GetOkNameRegex ethData) ethPayload.Results).Sublist
        (rangeOf ethPayload.Results)
    ∧ PublishesProjection exampleRuntime "front_ports"
        (keptBy exampleRuntime.regexp (GetOkNameRegex ethData) ethPayload.Results)
        (dataSourceNetboxDeviceFrontPortsRead exampleRuntime ethData (apiReturning ethPayload))
    ∧ PublishesProjection exampleRuntime "rear_ports"
        (keptBy exampleRuntime.regexp (GetOkNameRegex ethData) ethPayload.Results)
        (dataSourceNetboxDeviceRearPortsRead exampleRuntime ethData (apiReturning ethPayload))
    ∧ postFilter literalRegexp (some "eth") ethPayload.Results
        = .ok (some [some (portNamed 1 (some "eth0") "A" none),
            some (portNamed 2 (some "eth1") "B" none)])
    ∧ (dataSourceNetboxDeviceFrontPortsRead exampleRuntime ethData
        (apiReturning ethPayload)).outcome = Outcome.nil
    ∧ (published (dataSourceNetboxDeviceFrontPortsRead exampleRuntime ethData
        (apiReturning ethPayload)) "front_ports").map (fun mp => mp "name")
      = [some (Value.string "eth0"), some (Value.string "eth1")] := by
  have hnames : ∀ p ∈ rangeOf ethPayload.Results, ∃ fp, p = some fp ∧ fp.Name ≠ none := by
    intro p hp
    simp only [ethPayload, rangeOf, List.mem_cons, List.mem_singleton, List.not_mem_nil,
      or_false] at hp
    rcases hp with rfl | rfl | rfl
    · exact ⟨_, rfl, by simp [portNamed]⟩
    · exact ⟨_, rfl, by simp [portNamed]⟩
    · exact ⟨_, rfl, by simp [portNamed]⟩
  have hre : ∀ pattern, GetOkNameRegex ethData = some pattern →
      exampleRuntime.regexp.compiles pattern = true := by
    intro pattern hpat
    have hg : GetOkNameRegex ethData = some "eth" := by rfl
    rw [hg] at hpat
    rw [← Option.some.inj hpat]
    decide
  have hall := published_list_is_projection_of_kept exampleRuntime ethData
    (apiReturning ethPayload) ⟨none, some "sw1", none⟩ ethPayload 3 (by rfl) rfl (by decide)
    hnames hre
  exact ⟨by rfl, rfl, hnames, hall.1, hall.2.1 rfl, hall.2.2.1 rfl,
    hall.2.2.2 _ _ _ rfl rfl rfl, by rfl, by rfl⟩

theorem portsRead_of_postFilter_error
    (list : DcimFrontPortsListParams → Except String Payload)
    (key : String) (rt : Runtime) (d : ResourceData) (params : DcimFrontPortsListParams)
    (res : Payload) (count : Int) (p : Panic)
    (hf : filterBlock d NewDcimFrontPortsListParams = .ok params)
    (hl : list params = .ok res) (hc : res.Count = some count) (h0 : count ≠ 0)
    (hpf : postFilter rt.regexp (GetOkNameRegex d) res.Results = .error p) :
    portsRead list key rt d = ⟨Outcome.panic p, d, [params]⟩ := by
  rw [portsRead_of_count_nonzero list key rt d params res count hf hl hc h0]
  simp only [hpf]

/-- C5 (what the code does): with a `name_regex` that compiles and a successful response of
non-zero count holding a record whose name is null, both reads dereference that name at
line 121 and panic, publishing nothing; the record is not treated as a non-match. -/
theorem null_name_record_panics_under_name_regex (rt : Runtime) (d : ResourceData)
    (m : NetBoxAPI) (params : DcimFrontPortsListParams) (res : Payload) (count : Int)
    (pattern : String) (fp : FrontPort)
    (hf : filterBlock d NewDcimFrontPortsListParams = .ok params)
    (hc : res.Count = some count) (h0 : count ≠ 0)
    (hpat : GetOkNameRegex d = some pattern) (hcomp : rt.regexp.compiles pattern = true)
    (hmem : some fp ∈ rangeOf res.Results) (hnil : fp.Name = none) :
    (m.DcimFrontPortsList params = .ok res →
        dataSourceNetboxDeviceFrontPortsRead rt d m
          = ⟨Outcome.panic Panic.nilDereference, d, [params]⟩)
      ∧ (m.DcimRearPortsList params = .ok res →
        dataSourceNetboxDeviceRearPortsRead rt d m
          = ⟨Outcome.panic Panic.nilDereference, d, [params]⟩) := by
  have hpf : postFilter rt.regexp (GetOkNameRegex d) res.Results
      = .error Panic.nilDereference := by
    simp only [postFilter, hpat, hcomp, if_true]
    refine matchLoop_nil_name _ _ _ _ ⟨some fp, hmem, ?_⟩
    intro fq hq
    rw [← Option.some.inj hq]
    exact hnil
  constructor
  · intro hl
    rw [frontRead_eq_portsRead]
    exact portsRead_of_postFilter_error _ _ _ _ _ _ _ _ hf hl hc h0 hpf
  · intro hl
    rw [rearRead_eq_portsRead]
    exact portsRead_of_postFilter_error _ _ _ _ _ _ _ _ hf hl hc h0 hpf

theorem null_name_record_panics_under_name_regex_witness :
    dataSourceNetboxDeviceFrontPortsRead exampleRuntime ethData (apiReturning nullNamePayload)
        = ⟨Outcome.panic Panic.nilDereference, ethData, [⟨none, some "sw1", none⟩]⟩
      ∧ dataSourceNetboxDeviceRearPortsRead exampleRuntime ethData (apiReturning nullNamePayload)
        = ⟨Outcome.panic Panic.nilDereference, ethData, [⟨none, some "sw1", none⟩]⟩ :=
  ⟨(null_name_record_panics_under_name_regex exampleRuntime ethData
      (apiReturning nullNamePayload) ⟨none, some "sw1", none⟩ nullNamePayload 2 "eth"
      (portNamed 2 none "B" none) (by rfl) rfl (by decide) (by rfl) (by decide)
      (by simp [nullNamePayload, rangeOf]) rfl).1 rfl,
    (null_name_record_panics_under_name_regex exampleRuntime ethData
      (apiReturning nullNamePayload) ⟨none, some "sw1", none⟩ nullNamePayload 2 "eth"
      (portNamed 2 none "B" none) (by rfl) rfl (by decide) (by rfl) (by decide)
      (by simp [nullNamePayload, rangeOf]) rfl).2 rfl⟩

/-- C6 (counterexample): the pattern `(` does not compile, and a read reaching the
post-filter with it ends in the panic of `regexp.MustCompile`, not in a returned error. -/
theorem invalid_pattern_read_panics :
    literalRegexp.compiles "(" = false
      ∧ (dataSourceNetboxDeviceFrontPortsRead exampleRuntime badPatternData
          (apiReturning ethPayload)).outcome = Outcome.panic (Panic.mustCompile "(")
      ∧ ∀ e, (dataSourceNetboxDeviceFrontPortsRead exampleRuntime badPatternData
          (apiReturning ethPayload)).outcome ≠ Outcome.error e := by
  refine ⟨by decide, by rfl, ?_⟩
  intro e
  have h : (dataSourceNetboxDeviceFrontPortsRead exampleRuntime badPatternData
      (apiReturning ethPayload)).outcome = Outcome.panic (Panic.mustCompile "(") := by rfl
  rw [h]
  simp

theorem portsRead_of_bad_pattern (list : DcimFrontPortsListParams → Except String Payload)
    (key : String) (rt : Runtime) (d : ResourceData) (pattern : String)
    (hpat : GetOkNameRegex d = some pattern) (hbad : rt.regexp.compiles pattern = false) :
    (portsRead list key rt d).d = d ∧ (portsRead list key rt d).outcome ≠ Outcome.nil := by
  have hpf : ∀ results, postFilter rt.regexp (GetOkNameRegex d) results
      = .error (Panic.mustCompile pattern) := by
    intro results
    simp [postFilter, hpat, hbad]
  unfold portsRead
  simp only [hpf]
  constructor
  · repeat' split
    all_goals rfl
  · repeat' split
    all_goals simp

/-- C6 (amended): a `name_regex` that does not compile is rejected by the `ValidateFunc` of
the schema, `StringIsValidRegExp`; a read function called with it all the same never
succeeds and leaves the resource data (identifier and output) as it was, and when it gets
past the count check it ends in the panic of `regexp.MustCompile`, not in a returned
error. -/
theorem invalid_pattern_rejected_by_schema_or_panics (rt : Runtime) (d : ResourceData)
    (m : NetBoxAPI) (pattern : String)
    (hpat : GetOkNameRegex d = some pattern) (hbad : rt.regexp.compiles pattern = false) :
    StringIsValidRegExp rt.regexp pattern "name_regex" ≠ []
      ∧ (dataSourceNetboxDeviceFrontPortsRead rt d m).d = d
      ∧ (dataSourceNetboxDeviceFrontPortsRead rt d m).outcome ≠ Outcome.nil
      ∧ (dataSourceNetboxDeviceRearPortsRead rt d m).d = d
      ∧ (dataSourceNetboxDeviceRearPortsRead rt d m).outcome ≠ Outcome.nil
      ∧ (∀ params res count, filterBlock d NewDcimFrontPortsListParams = .ok params →
          res.Count = some count → count ≠ 0 →
          (m.DcimFrontPortsList params = .ok res →
            dataSourceNetboxDeviceFrontPortsRead rt d m
              = ⟨Outcome.panic (Panic.mustCompile pattern), d, [params]⟩)
          ∧ (m.DcimRearPortsList params = .ok res →
            dataSourceNetboxDeviceRearPortsRead rt d m
              = ⟨Outcome.panic (Panic.mustCompile pattern), d, [params]⟩)) := by
  have hfront := portsRead_of_bad_pattern m.DcimFrontPortsList "front_ports" rt d pattern
    hpat hbad
  have hrear := portsRead_of_bad_pattern m.DcimRearPortsList "rear_ports" rt d pattern
    hpat hbad
  refine ⟨by simp [StringIsValidRegExp, hbad], ?_, ?_, ?_, ?_, ?_⟩
  · rw [frontRead_eq_portsRead]; exact hfront.1
  · rw [frontRead_eq_portsRead]; exact hfront.2
  · rw [rearRead_eq_portsRead]; exact hrear.1
  · rw [rearRead_eq_portsRead]; exact hrear.2
  · intro params res count hf hc h0
    have hpf : postFilter rt.regexp (GetOkNameRegex d) res.Results
        = .error (Panic.mustCompile pattern) := by
      simp [postFilter, hpat, hbad]
    constructor
    · intro hl
      rw [frontRead_eq_portsRead]
      exact portsRead_of_postFilter_error _ _ _ _ _ _ _ _ hf hl hc h0 hpf
    · intro hl
      rw [rearRead_eq_portsRead]
      exact portsRead_of_postFilter_error _ _ _ _ _ _ _ _ hf hl hc h0 hpf

theorem invalid_pattern_rejected_by_schema_or_panics_witness :
    GetOkNameRegex badPatternData = some "("
      ∧ exampleRuntime.regexp.compiles "(" = false
      ∧ StringIsValidRegExp exampleRuntime.regexp "(" "name_regex" ≠ []
      ∧ dataSourceNetboxDeviceFrontPortsRead exampleRuntime badPatternData
          (apiReturning ethPayload)
        = ⟨Outcome.panic (Panic.mustCompile "("), badPatternData, [⟨none, none, none⟩]⟩
      ∧ dataSourceNetboxDeviceRearPortsRead exampleRuntime badPatternData
          (apiReturning ethPayload)
        = ⟨Outcome.panic (Panic.mustCompile "("), badPatternData, [⟨none, none, none⟩]⟩ := by
  have hall := invalid_pattern_rejected_by_schema_or_panics exampleRuntime badPatternData
    (apiReturning ethPayload) "(" (by rfl) (by decide)
  have hreach := hall.2.2.2.2.2 ⟨none, none, none⟩ ethPayload 3 (by rfl) rfl (by decide)
  exact ⟨by rfl, by decide, hall.1, hreach.1 rfl, hreach.2 rfl⟩

/-! ## The projection of one record -/

theorem foldl_appendSlice_some {α : Type} (xs : List α) :
    ∀ l : List α, xs.foldl appendSlice (some l) = some (l ++ xs) := by
  induction xs with
  | nil => intro l; simp
  | cons x rest ih =>
    intro l
    rw [List.foldl_cons]
    have h : appendSlice (some l) x = some (l ++ [x]) := rfl
    rw [h, ih]
    simp

theorem sliceOf_eq {α : Type} (xs : List α) :
    sliceOf xs = if xs.isEmpty then none else some xs := by
  cases xs with
  | nil => rfl
  | cons x rest =>
    have h : appendSlice (none : Slice α) x = some [x] := rfl
    simp only [sliceOf, List.foldl_cons, h, foldl_appendSlice_some]
    simp

theorem tagLoop_ok (ts : List (Option NestedTag)) :
    ∀ (acc tags : Slice Int), tagLoop ts acc = .ok tags →
      ∃ ids : List Int, ts = ids.map (fun i => some ⟨i⟩)
        ∧ tags = ids.foldl appendSlice acc := by
  induction ts with
  | nil =>
    intro acc tags h
    refine ⟨[], rfl, ?_⟩
    simp only [tagLoop] at h
    exact (Except.ok.inj h).symm
  | cons t rest ih =>
    intro acc tags h
    cases t with
    | none => simp [tagLoop] at h
    | some tag =>
      simp only [tagLoop] at h
      obtain ⟨ids, hids, htags⟩ := ih _ _ h
      exact ⟨tag.ID :: ids, by simp [hids], by simpa using htags⟩

theorem tagLoop_of_non_nil (ts : List (Option NestedTag)) :
    ∀ acc : Slice Int, (∀ t ∈ ts, t ≠ none) → ∃ tags, tagLoop ts acc = .ok tags := by
  induction ts with
  | nil => intro acc _; exact ⟨acc, rfl⟩
  | cons t rest ih =>
    intro acc h
    cases t with
    | none => exact absurd rfl (h none (List.mem_cons_self _ _))
    | some tag =>
      simp only [tagLoop]
      exact ih _ (fun q hq => h q (List.mem_cons_of_mem _ hq))

theorem projectPort_ok (fp : FrontPort) (mp : Mapping) (h : projectPort (some fp) = .ok mp) :
    ∃ device, fp.Device = some device
      ∧ ((fp.Tags = none ∧ mp = projected fp none device)
        ∨ ∃ ts ids, fp.Tags = some ts ∧ ts = ids.map (fun i => some ⟨i⟩)
            ∧ mp = projected fp (some (sliceOf ids)) device) := by
  unfold projectPort at h
  cases hd : fp.Device with
  | none =>
    cases ht : fp.Tags with
    | none => simp [hd, ht] at h
    | some ts =>
      cases hl : tagLoop ts none with
      | error e => simp [hd, ht, hl] at h
      | ok tags => simp [hd, ht, hl] at h
  | some device =>
    refine ⟨device, rfl, ?_⟩
    cases ht : fp.Tags with
    | none =>
      simp only [hd, ht] at h
      exact Or.inl ⟨rfl, by rw [← Except.ok.inj h]; simp only [projected, ht]⟩
    | some ts =>
      cases hl : tagLoop ts none with
      | error e => simp [hd, ht, hl] at h
      | ok tags =>
        obtain ⟨ids, hids, htags⟩ := tagLoop_ok ts none tags hl
        simp only [hd, ht, hl] at h
        refine Or.inr ⟨ts, ids, rfl, hids, ?_⟩
        rw [← Except.ok.inj h, htags]
        simp only [projected, sliceOf]

theorem projected_description (fp : FrontPort) (tags : Option (Slice Int))
    (device : NestedDevice) :
    projected fp tags device "description"
      = if fp.Description ≠ "" then some (Value.string fp.Description) else none := by
  cases tags <;> cases hn : fp.Name <;> by_cases h : fp.Description = "" <;>
    simp [projected, setKey, makeMapping, h, hn]

theorem projected_tag_ids (fp : FrontPort) (tags : Option (Slice Int)) (device : NestedDevice) :
    projected fp tags device "tag_ids" = tags.map Value.int64s := by
  cases tags <;> cases hn : fp.Name <;> by_cases h : fp.Description = "" <;>
    simp [projected, setKey, makeMapping, h, hn]

theorem projected_name (fp : FrontPort) (tags : Option (Slice Int)) (device : NestedDevice) :
    projected fp tags device "name" = fp.Name.map Value.string := by
  cases tags <;> cases hn : fp.Name <;> by_cases h : fp.Description = "" <;>
    simp [projected, setKey, makeMapping, h, hn]

theorem projected_always (fp : FrontPort) (tags : Option (Slice Int)) (device : NestedDevice) :
    projected fp tags device "id" = some (Value.int64 fp.ID)
      ∧ projected fp tags device "occupied" = some (Value.bool fp.Occupied)
      ∧ projected fp tags device "device_id" = some (Value.int64 device.ID)
      ∧ projected fp tags device "label" = some (Value.string fp.Label) := by
  cases tags <;> cases hn : fp.Name <;> by_cases h : fp.Description = "" <;>
    simp [projected, setKey, makeMapping, h, hn]

theorem projected_other (fp : FrontPort) (tags : Option (Slice Int)) (device : NestedDevice)
    (k : String) (hk : k ∉ projectedKeys) : projected fp tags device k = none := by
  simp only [projectedKeys, List.mem_cons, List.mem_singleton, List.not_mem_nil, or_false,
    not_or] at hk
  obtain ⟨h1, h2, h3, h4, h5, h6, h7⟩ := hk
  cases tags <;> cases hn : fp.Name <;> by_cases h : fp.Description = "" <;>
    simp [projected, setKey, makeMapping, h, hn, h1, h2, h3, h4, h5, h6, h7]

/-- C7 (counterexample): a record whose tag sequence is present but empty has no tag, yet
its projected map contains the key `tag_ids`, holding the nil list. -/
theorem empty_tag_sequence_keeps_tag_ids_key :
    rangeOf (portNamed 1 (some "fp1") "A" (some [])).Tags = []
      ∧ ∃ mp, projectPort (some (portNamed 1 (some "fp1") "A" (some []))) = .ok mp
        ∧ mp "tag_ids" = some (Value.int64s none) :=
  ⟨rfl, _, rfl, by rfl⟩

/-- C7 (amended): the projected map of a record contains the key `description` if and only
if the description is non-empty, then with the description as value; it contains the key
`tag_ids` if and only if the tag sequence is not nil, then with the list of the ids of the
tags, in their order, as value, which for a present but empty tag sequence is the nil
list. Description `""` with nil tags gives neither key; description `uplink` with the
single tag 7 gives `uplink` and `[7]`. -/
theorem projection_description_and_tag_ids (fp : FrontPort) (mp : Mapping)
    (h : projectPort (some fp) = .ok mp) :
    (mp "description" ≠ none ↔ fp.Description ≠ "")
      ∧ (fp.Description ≠ "" → mp "description" = some (Value.string fp.Description))
      ∧ (mp "tag_ids" ≠ none ↔ fp.Tags ≠ none)
      ∧ (∀ ts, fp.Tags = some ts →
          ∃ ids : List Int, ts = ids.map (fun i => some ⟨i⟩)
            ∧ mp "tag_ids" = some (Value.int64s (if ids.isEmpty then none else some ids)))
      ∧ (∃ mp0, projectPort (some (portNamed 1 (some "fp1") "A" none)) = .ok mp0
          ∧ mp0 "description" = none ∧ mp0 "tag_ids" = none)
      ∧ (∃ mp1, projectPort (some uplinkPort) = .ok mp1
          ∧ mp1 "description" = some (Value.string "uplink")
          ∧ mp1 "tag_ids" = some (Value.int64s (some [7]))) := by
  obtain ⟨device, hd, hcase⟩ := projectPort_ok fp mp h
  refine ⟨?_, ?_, ?_, ?_, ⟨_, rfl, by rfl, by rfl⟩, ⟨_, rfl, by rfl, by rfl⟩⟩
  · rcases hcase with ⟨_, rfl⟩ | ⟨ts, ids, _, _, rfl⟩
    · rw [projected_description]; by_cases hdesc : fp.Description = "" <;> simp [hdesc]
    · rw [projected_description]; by_cases hdesc : fp.Description = "" <;> simp [hdesc]
  · intro hdesc
    rcases hcase with ⟨_, rfl⟩ | ⟨ts, ids, _, _, rfl⟩
    · rw [projected_description]; simp [hdesc]
    · rw [projected_description]; simp [hdesc]
  · rcases hcase with ⟨ht, rfl⟩ | ⟨ts, ids, ht, _, rfl⟩
    · rw [projected_tag_ids]; simp [ht]
    · rw [projected_tag_ids]; simp [ht]
  · intro ts hts
    rcases hcase with ⟨ht, rfl⟩ | ⟨ts2, ids, ht, hids, rfl⟩
    · rw [ht] at hts; simp at hts
    · rw [ht] at hts
      have hts2 : ts2 = ts := Option.some.inj hts
      refine ⟨ids, by rw [← hts2]; exact hids, ?_⟩
      rw [projected_tag_ids, sliceOf_eq]
      rfl

theorem projection_description_and_tag_ids_witness :
    projectPort (some uplinkPort)
        = .ok (projected uplinkPort (some (some [7])) { ID := 10 })
      ∧ (projected uplinkPort (some (some [7])) { ID := 10 } "tag_ids" ≠ none
          ↔ uplinkPort.Tags ≠ none)
      ∧ (projected uplinkPort (some (some [7])) { ID := 10 } "description" ≠ none
          ↔ uplinkPort.Description ≠ "") :=
  ⟨rfl,
    (projection_description_and_tag_ids uplinkPort
      (projected uplinkPort (some (some [7])) { ID := 10 }) rfl).2.2.1,
    (projection_description_and_tag_ids uplinkPort
      (projected uplinkPort (some (some [7])) { ID := 10 }) rfl).1⟩

/-- C8 (counterexample): for a record whose device reference is absent the projection does
not succeed: `frontPort.Device.ID` dereferences the nil pointer. -/
theorem absent_device_projection_panics :
    projectPort (some { portNamed 1 (some "fp1") "A" none with Device := none })
      = .error Panic.nilDereference := by
  rfl

/-- C8 (amended): for every record whose device reference is present and whose tag
sequence holds no nil entry, the projection succeeds and its map always contains the keys
`id`, `occupied`, `device_id` and `label` with the id, occupied flag, device id and label
of the record as values, the label also when it is empty, and contains the key `name` if
and only if the name of the record is not nil, then with that name as value. -/
theorem projection_succeeds_with_device (fp : FrontPort) (device : NestedDevice)
    (hd : fp.Device = some device) (htags : ∀ t ∈ rangeOf fp.Tags, t ≠ none) :
    ∃ mp, projectPort (some fp) = .ok mp
      ∧ mp "id" = some (Value.int64 fp.ID)
      ∧ mp "occupied" = some (Value.bool fp.Occupied)
      ∧ mp "device_id" = some (Value.int64 device.ID)
      ∧ mp "label" = some (Value.string fp.Label)
      ∧ (mp "name" ≠ none ↔ fp.Name ≠ none)
      ∧ (∀ name, fp.Name = some name → mp "name" = some (Value.string name)) := by
  have hok : ∃ mp, projectPort (some fp) = .ok mp := by
    unfold projectPort
    cases ht : fp.Tags with
    | none => simp [hd, ht]
    | some ts =>
      have hts : ∀ t ∈ ts, t ≠ none := by
        intro t hmem
        apply htags
        rw [ht]
        exact hmem
      obtain ⟨tags, hl⟩ := tagLoop_of_non_nil ts none hts
      simp [hd, ht, hl]
  obtain ⟨mp, hmp⟩ := hok
  obtain ⟨device2, hd2, hcase⟩ := projectPort_ok fp mp hmp
  have hdev : device2 = device := by
    rw [hd] at hd2
    exact (Option.some.inj hd2).symm
  subst hdev
  have hall : ∀ tags, projected fp tags device2 "id" = some (Value.int64 fp.ID)
      ∧ projected fp tags device2 "occupied" = some (Value.bool fp.Occupied)
      ∧ projected fp tags device2 "device_id" = some (Value.int64 device2.ID)
      ∧ projected fp tags device2 "label" = some (Value.string fp.Label)
      ∧ (projected fp tags device2 "name" ≠ none ↔ fp.Name ≠ none)
      ∧ (∀ name, fp.Name = some name →
          projected fp tags device2 "name" = some (Value.string name)) := by
    intro tags
    obtain ⟨h1, h2, h3, h4⟩ := projected_always fp tags device2
    refine ⟨h1, h2, h3, h4, ?_, ?_⟩
    · rw [projected_name]; cases fp.Name <;> simp
    · intro name hname
      rw [projected_name, hname]
      rfl
  refine ⟨mp, hmp, ?_⟩
  rcases hcase with ⟨_, rfl⟩ | ⟨ts, ids, _, _, rfl⟩
  · exact hall _
  · exact hall _

theorem projection_succeeds_with_device_witness :
    uplinkPort.Device = some { ID := 10 }
      ∧ (∀ t ∈ rangeOf uplinkPort.Tags, t ≠ none)
      ∧ ∃ mp, projectPort (some uplinkPort) = .ok mp
        ∧ mp "id" = some (Value.int64 uplinkPort.ID)
        ∧ mp "occupied" = some (Value.bool uplinkPort.Occupied)
        ∧ mp "device_id" = some (Value.int64 10)
        ∧ mp "label" = some (Value.string uplinkPort.Label)
        ∧ (mp "name" ≠ none ↔ uplinkPort.Name ≠ none)
        ∧ (∀ name, uplinkPort.Name = some name → mp "name" = some (Value.string name)) :=
  ⟨rfl, by decide,
    projection_succeeds_with_device uplinkPort { ID := 10 } rfl (by decide)⟩

/-! ## End to end -/

/-- C9 (counterexample): in the end-to-end scenario the first published entry does contain
the key `tag_ids`, with the nil list as value. -/
theorem scenario_first_entry_has_tag_ids :
    (published (dataSourceNetboxDeviceFrontPortsRead exampleRuntime scenarioData
        (apiReturning scenarioPayload)) "front_ports").map (fun mp => mp "tag_ids")
      = [some (Value.int64s none), some (Value.int64s (some [3]))] := by
  rfl

/-- C9 (amended): with the filter `device_name = sw1`, no `name_regex` and the response of
count 2 with `fp1` (tags present but empty) and `fp2` (tag 3), the read sends `Device =
"sw1"` with `DeviceID` and `Name` unset, succeeds, and publishes two entries in this
order: `fp1` with id 1, occupied, device 10, label `A`, no `description` key and the key
`tag_ids` holding the nil list; then `fp2` with id 2, not occupied, device 10, label `B`,
`tag_ids` `[3]` and no `description` key; neither entry has any other key. -/
theorem end_to_end_scenario (rt : Runtime) (d : ResourceData) (m : NetBoxAPI)
    (hfilter : d.filter = [⟨"device_name", "sw1"⟩]) (hre : d.name_regex = none)
    (hl : m.DcimFrontPortsList ⟨none, some "sw1", none⟩ = .ok scenarioPayload)
    (hset : ∀ s, rt.Set "front_ports" s = none) :
    (dataSourceNetboxDeviceFrontPortsRead rt d m).outcome = Outcome.nil
      ∧ (dataSourceNetboxDeviceFrontPortsRead rt d m).calls = [⟨none, some "sw1", none⟩]
      ∧ (dataSourceNetboxDeviceFrontPortsRead rt d m).d.Id = rt.UniqueId
      ∧ (published (dataSourceNetboxDeviceFrontPortsRead rt d m) "front_ports").map
          (fun mp => projectedKeys.map mp)
        = [[some (Value.int64 1), none, some (Value.bool true), some (Value.string "fp1"),
              some (Value.int64s none), some (Value.int64 10), some (Value.string "A")],
            [some (Value.int64 2), none, some (Value.bool false), some (Value.string "fp2"),
              some (Value.int64s (some [3])), some (Value.int64 10), some (Value.string "B")]]
      ∧ ∀ mp ∈ published (dataSourceNetboxDeviceFrontPortsRead rt d m) "front_ports",
          ∀ k, k ∉ projectedKeys → mp k = none := by
  have hf : filterBlock d NewDcimFrontPortsListParams = .ok ⟨none, some "sw1", none⟩ := by
    rw [filterBlock_eq, hfilter]
    rfl
  have hg : GetOkNameRegex d = none := by simp [GetOkNameRegex, hre]
  have hpl : projectLoop (rangeOf scenarioPayload.Results) none
      = .ok (some [projected scenarioPort1 (some none) { ID := 10 },
          projected scenarioPort2 (some (some [3])) { ID := 10 }]) := by
    rfl
  have hr : dataSourceNetboxDeviceFrontPortsRead rt d m
      = ⟨Outcome.nil, (d.SetId rt.UniqueId).write "front_ports"
          (some [projected scenarioPort1 (some none) { ID := 10 },
            projected scenarioPort2 (some (some [3])) { ID := 10 }]),
          [⟨none, some "sw1", none⟩]⟩ := by
    rw [frontRead_eq_portsRead,
      portsRead_of_count_nonzero _ _ rt d _ scenarioPayload 2 hf hl rfl (by decide), hg]
    simp only [postFilter, hpl, hset]
  rw [hr]
  refine ⟨rfl, rfl, rfl, ?_, ?_⟩
  · simp only [published, ResourceData.write, if_true, rangeOf]
    rfl
  · intro mp hmp k hk
    simp only [published, ResourceData.write, if_true, rangeOf, List.mem_cons,
      List.mem_singleton, List.not_mem_nil, or_false] at hmp
    rcases hmp with rfl | rfl
    · exact projected_other _ _ _ k hk
    · exact projected_other _ _ _ k hk

theorem end_to_end_scenario_witness :
    scenarioData.filter = [⟨"device_name", "sw1"⟩] ∧ scenarioData.name_regex = none
      ∧ (dataSourceNetboxDeviceFrontPortsRead exampleRuntime scenarioData
          (apiReturning scenarioPayload)).outcome = Outcome.nil
      ∧ (dataSourceNetboxDeviceFrontPortsRead exampleRuntime scenarioData
          (apiReturning scenarioPayload)).calls = [⟨none, some "sw1", none⟩] :=
  ⟨rfl, rfl,
    (end_to_end_scenario exampleRuntime scenarioData (apiReturning scenarioPayload) rfl rfl
      rfl (fun _ => rfl)).1,
    (end_to_end_scenario exampleRuntime scenarioData (apiReturning scenarioPayload) rfl rfl
      rfl (fun _ => rfl)).2.1⟩

/-! ## Effect on the resource data -/

theorem filterLoop_error (fs : List FilterEntry) :
    ∀ (p0 : DcimFrontPortsListParams) (e : GoError), filterLoop fs p0 = .error e →
      ∃ k, e = GoError.Errorf (unsupportedFilterMessage k) := by
  induction fs with
  | nil => intro p0 e h; simp [filterLoop] at h
  | cons f rest ih =>
    intro p0 e h
    simp only [filterLoop] at h
    split at h
    · exact ih _ _ h
    · split at h
      · exact ih _ _ h
      · split at h
        · exact ih _ _ h
        · exact ⟨f.name, (Except.error.inj h).symm⟩

theorem portsRead_effect_core (list : DcimFrontPortsListParams → Except String Payload)
    (key : String) (rt : Runtime) (d : ResourceData) :
    (∀ e, (portsRead list key rt d).outcome = Outcome.error e →
        (∀ msg, e ≠ GoError.schema msg) → (portsRead list key rt d).d = d)
      ∧ (∀ msg, (portsRead list key rt d).outcome = Outcome.error (GoError.schema msg) →
          (portsRead list key rt d).d = d.SetId rt.UniqueId ∧ ∃ s, rt.Set key s = some msg)
      ∧ (∀ p, (portsRead list key rt d).outcome = Outcome.panic p →
          (portsRead list key rt d).d = d)
      ∧ ((portsRead list key rt d).outcome = Outcome.nil →
          ∃ params res filtered s, filterBlock d NewDcimFrontPortsListParams = .ok params
            ∧ list params = .ok res
            ∧ postFilter rt.regexp (GetOkNameRegex d) res.Results = .ok filtered
            ∧ projectLoop (rangeOf filtered) none = .ok s
            ∧ (portsRead list key rt d).d = (d.SetId rt.UniqueId).write key s) := by
  cases hf : filterBlock d NewDcimFrontPortsListParams with
  | error e0 =>
    rw [portsRead_of_filter_error list key rt d e0 hf]
    obtain ⟨k, hk⟩ := filterLoop_error d.filter _ e0 (by rw [← filterBlock_eq]; exact hf)
    subst hk
    simp
  | ok params =>
    cases hl : list params with
    | error err =>
      rw [portsRead_of_client_error list key rt d params err hf hl]
      simp
    | ok res =>
      cases hc : res.Count with
      | none =>
        have hr : portsRead list key rt d
            = ⟨Outcome.panic Panic.nilDereference, d, [params]⟩ := by
          unfold portsRead
          rw [hf]
          simp only [hl, hc]
        rw [hr]
        simp
      | some count =>
        by_cases h0 : count = 0
        · rw [portsRead_of_count_zero list key rt d params res hf hl (by rw [hc, h0])]
          simp
        · rw [portsRead_of_count_nonzero list key rt d params res count hf hl hc h0]
          cases hpf : postFilter rt.regexp (GetOkNameRegex d) res.Results with
          | error p => simp
          | ok filtered =>
            dsimp only
            cases hpl : projectLoop (rangeOf filtered) none with
            | error p => simp
            | ok s =>
              dsimp only
              cases hs : rt.Set key s with
              | some msg =>
                refine ⟨?_, ?_, ?_, ?_⟩
                · intro e he hne
                  simp only [Outcome.error.injEq] at he
                  exact absurd he.symm (hne msg)
                · intro msg2 hm
                  simp only [Outcome.error.injEq, GoError.schema.injEq] at hm
                  exact ⟨rfl, s, by rw [hs, hm]⟩
                · intro p2 hp2
                  simp at hp2
                · intro hn
                  simp at hn
              | none =>
                refine ⟨?_, ?_, ?_, ?_⟩
                · intro e he
                  simp at he
                · intro msg2 hm
                  simp at hm
                · intro p2 hp2
                  simp at hp2
                · intro _
                  exact ⟨params, res, filtered, s, rfl, hl, hpf, hpl, rfl⟩

theorem portsRead_effect (list : DcimFrontPortsListParams → Except String Payload)
    (key : String) (rt : Runtime) (d : ResourceData) :
    ReadEffect list key rt d (portsRead list key rt d) := by
  obtain ⟨h1, h2, h3, h5⟩ := portsRead_effect_core list key rt d
  exact ⟨h1, h2, h3,
    fun params err hf hl => portsRead_of_client_error list key rt d params err hf hl, h5⟩

/-- C10 (counterexample): when the final `d.Set` reports an error the read returns it, but
the identifier has already been assigned: the resource data is not what it was. -/
theorem failed_write_leaves_identifier_assigned :
    (dataSourceNetboxDeviceFrontPortsRead failingSetRuntime scenarioData
        (apiReturning scenarioPayload)).outcome
      = Outcome.error (GoError.schema "front_ports: invalid value")
      ∧ scenarioData.Id = ""
      ∧ (dataSourceNetboxDeviceFrontPortsRead failingSetRuntime scenarioData
          (apiReturning scenarioPayload)).d.Id = "terraform-20240101000000000000000001"
      ∧ (dataSourceNetboxDeviceFrontPortsRead failingSetRuntime scenarioData
          (apiReturning scenarioPayload)).d ≠ scenarioData := by
  refine ⟨by rfl, rfl, by rfl, ?_⟩
  intro h
  have hid := congrArg ResourceData.Id h
  have hid2 : (dataSourceNetboxDeviceFrontPortsRead failingSetRuntime scenarioData
      (apiReturning scenarioPayload)).d.Id = "terraform-20240101000000000000000001" := by rfl
  rw [hid2] at hid
  exact absurd hid (by decide)

/-- C10 (amended): for every input, a read that returns an unsupported-filter error, a
client error (the one the remote call reported, unchanged) or `no result`, and a read that
panics, leaves the resource data exactly as it was; a read that returns the error of the
final `d.Set` has assigned the identifier and written no port list; and a read that
returns success has written both the identifier `id.UniqueId()` gave and the whole
projected list. -/
theorem read_effect_on_resource_data (rt : Runtime) (d : ResourceData) (m : NetBoxAPI) :
    ReadEffect m.DcimFrontPortsList "front_ports" rt d
        (dataSourceNetboxDeviceFrontPortsRead rt d m)
      ∧ ReadEffect m.DcimRearPortsList "rear_ports" rt d
        (dataSourceNetboxDeviceRearPortsRead rt d m) := by
  rw [frontRead_eq_portsRead, rearRead_eq_portsRead]
  exact ⟨portsRead_effect _ _ _ _, portsRead_effect _ _ _ _⟩

theorem read_effect_on_resource_data_witness :
    (dataSourceNetboxDeviceFrontPortsRead exampleRuntime scenarioData
        (apiReturning scenarioPayload)).outcome = Outcome.nil
      ∧ ∃ params res filtered s,
          filterBlock scenarioData NewDcimFrontPortsListParams = .ok params
          ∧ (apiReturning scenarioPayload).DcimFrontPortsList params = .ok res
          ∧ postFilter exampleRuntime.regexp (GetOkNameRegex scenarioData) res.Results
              = .ok filtered
          ∧ projectLoop (rangeOf filtered) none = .ok s
          ∧ (dataSourceNetboxDeviceFrontPortsRead exampleRuntime scenarioData
              (apiReturning scenarioPayload)).d
            = (scenarioData.SetId exampleRuntime.UniqueId).write "front_ports" s :=
  ⟨by rfl,
    (read_effect_on_resource_data exampleRuntime scenarioData
      (apiReturning scenarioPayload)).1.2.2.2.2 (by rfl)⟩


end Netbox
